import Mathlib

/-!
Verification of the gospel-message metrics aggregator implemented in
`src/consumers/project_consumer_eric.py`.

The aggregator is embedded shallowly:

* Python floats are modelled by `ℚ` (all constants in the source are exact
  decimals, so the arithmetic claims are about the exact values).
* Python strings by `String`; `a in b` (substring test) by infix containment
  on the underlying character lists; `str.lower()` by mapping
  `Char.toLower` over the characters.
* The mutable `GospelAnalyzer` instance by an explicit `AnalyzerState`
  record threaded through `process_message`.
* `datetime.now()` by a timestamp parameter `now` supplied to each call.
* The JSON parse of an input line by the inductive `ParsedLine`: a line
  either fails `json.loads`, or parses to a non-dict value, or parses to a
  dict whose relevant fields are modelled by `RecordDict`.  A field absent
  from the dict is `none` (Python `dict.get` default applies); the
  `sentiment` field is either a value `float(..)` converts to, or a value
  on which `float(..)` raises (`SentimentField.nonNumeric`).
* `defaultdict(int)` by a total function `String → ℕ` (default `0`),
  a Python `set` by a `Finset`.
-/

/-- Python `str.lower()`: lower-case every character. -/
def lowerStr (s : String) : String := ⟨s.data.map Char.toLower⟩

/-- Python `needle in haystack` for strings: substring containment. -/
def containsSub (needle haystack : String) : Bool :=
  decide (needle.data <:+: haystack.data)

/-- Increment one key of a `defaultdict(int)` modelled as a total function. -/
def incr (m : String → ℕ) (k : String) : String → ℕ :=
  fun x => if x = k then m x + 1 else m x

/-- The keyword taxonomy `GospelAnalyzer.gospel_keywords`, in source order. -/
def gospel_keywords : List (String × List String) :=
  [("salvation", ["salvation", "saved", "born again", "redeemed", "forgiven"]),
   ("jesus", ["jesus", "christ", "lord", "savior", "messiah", "god"]),
   ("faith", ["faith", "believe", "trust", "christian", "prayer"]),
   ("scripture", ["bible", "scripture", "word", "psalm", "verse", "biblical"]),
   ("grace", ["grace", "mercy", "forgiveness", "love", "blessed"]),
   ("witness", ["testimony", "witness", "share", "proclaim", "preach"]),
   ("truth", ["truth", "righteousness", "holy", "pure", "righteous"]),
   ("eternity", ["heaven", "eternal", "soul", "spirit", "heavenly"])]

/-- Inner loop of `calculate_gospel_score` over one category's keyword list.
State: `(total_keywords, found_categories, keyword_counts, category_found)`.
For each keyword contained in the lowered message the keyword total and the
keyword's count are incremented, and the category counter is incremented on
the first hit of the category (`category_found` flag). -/
def scanKeywords (msgLower : String) :
    List String → ℕ → ℕ → (String → ℕ) → Bool → ℕ × ℕ × (String → ℕ) × Bool
  | [], tk, fc, kwm, found => (tk, fc, kwm, found)
  | kw :: rest, tk, fc, kwm, found =>
    if containsSub kw msgLower then
      scanKeywords msgLower rest (tk + 1) (if found then fc else fc + 1)
        (incr kwm kw) true
    else
      scanKeywords msgLower rest tk fc kwm found

/-- Outer loop of `calculate_gospel_score` over the categories; the
`category_found` flag is reset to `false` for each category. -/
def scanCategories (msgLower : String) :
    List (String × List String) → ℕ → ℕ → (String → ℕ) → ℕ × ℕ × (String → ℕ)
  | [], tk, fc, kwm => (tk, fc, kwm)
  | (_, kws) :: rest, tk, fc, kwm =>
    let r := scanKeywords msgLower kws tk fc kwm false
    scanCategories msgLower rest r.1 r.2.1 r.2.2.1

/-- `GospelAnalyzer.calculate_gospel_score`.  Besides returning the score it
mutates `self.keyword_counts`, so the embedding returns the score together
with the updated keyword-count map.  An empty message returns `0` at once
(Python truthiness test `if not message_text`). -/
def calculate_gospel_score (kwm : String → ℕ) (message_text : String) :
    ℚ × (String → ℕ) :=
  if message_text = "" then (0, kwm)
  else
    let message_lower := lowerStr message_text
    let r := scanCategories message_lower gospel_keywords 0 0 kwm
    let base_score : ℚ := min ((r.1 : ℚ) * 0.2) 1.0
    let diversity_bonus : ℚ := (r.2.1 : ℚ) * 0.1
    (min (base_score + diversity_bonus) 1.0, r.2.2)

/-- `GospelAnalyzer.calculate_faith_impact`. -/
def calculate_faith_impact (gospel_score sentiment : ℚ) : ℚ :=
  gospel_score * max sentiment 0.3

/-- The `opportunity_phrases` list of `is_evangelistic_opportunity`. -/
def opportunity_phrases : List String :=
  ["what is the point", "feeling lost", "need hope", "struggling",
   "what happens when", "life is hard", "need help", "depressed",
   "lonely", "purpose", "meaning", "why am i here", "amazing", "boring"]

/-- The `sentiment` field of a parsed JSON dict: either a value that
`float(..)` converts to the rational `q`, or one on which `float(..)`
raises. -/
inductive SentimentField where
  | num (q : ℚ)
  | nonNumeric
deriving DecidableEq

/-- The fields of a parsed JSON dict that `process_message` reads; `none`
means the key is absent and `dict.get`'s default applies. -/
structure RecordDict where
  message : Option String
  author : Option String
  sentiment : Option SentimentField
  category : Option String
deriving DecidableEq

/-- Python `float(message_dict.get('sentiment', 0))`: `some` value on
success, `none` when `float(..)` raises. -/
def getSentiment? (r : RecordDict) : Option ℚ :=
  match r.sentiment with
  | none => some 0
  | some (.num q) => some q
  | some .nonNumeric => none

/-- `GospelAnalyzer.is_evangelistic_opportunity`.  `none` models the
exception raised by `float(..)` on a non-numeric sentiment; otherwise the
result is `true` when some opportunity phrase occurs in the lowered message,
or when the sentiment is below `-0.1` or above `0.8`. -/
def is_evangelistic_opportunity (message_data : RecordDict) : Option Bool :=
  match getSentiment? message_data with
  | none => none
  | some sentiment =>
    let message := lowerStr (message_data.message.getD "")
    if opportunity_phrases.any (fun p => containsSub p message) then
      some true
    else
      some (decide (sentiment < -0.1) || decide (sentiment > 0.8))

/-- Outcome of `json.loads` on one input line. -/
inductive ParsedLine where
  | invalidJson
  | nonDict
  | dict (r : RecordDict)
deriving DecidableEq

/-- Append to a `collections.deque` with `maxlen = N`: the new element is
added at the right and the leftmost elements are discarded so that at most
`N` remain. -/
def dequeAppend (N : ℕ) (d : List α) (x : α) : List α :=
  (d ++ [x]).drop (d.length + 1 - N)

/-- The mutable state of the global `GospelAnalyzer` instance. -/
structure AnalyzerState where
  max_points : ℕ
  timestamps : List ℚ
  gospel_scores : List ℚ
  faith_impact : List ℚ
  total_messages : ℕ
  gospel_messages : ℕ
  high_impact_messages : ℕ
  keyword_counts : String → ℕ
  authors_sharing_gospel : Finset String
  category_gospel_counts : String → ℕ
  bold_witness_count : ℕ
  evangelistic_opportunities : ℕ

/-- `GospelAnalyzer.__init__` with the default `max_points=100`, as built by
the module-level `gospel_analyzer = GospelAnalyzer()`. -/
def initialState : AnalyzerState where
  max_points := 100
  timestamps := []
  gospel_scores := []
  faith_impact := []
  total_messages := 0
  gospel_messages := 0
  high_impact_messages := 0
  keyword_counts := fun _ => 0
  authors_sharing_gospel := ∅
  category_gospel_counts := fun _ => 0
  bold_witness_count := 0
  evangelistic_opportunities := 0

/-- `process_message`, as a state transformer.  A line that fails to parse,
parses to a non-dict, or whose sentiment field makes `float(..)` raise
leaves the state unchanged (the exception is raised before any mutation and
caught by the surrounding handler).  Otherwise the metrics are computed and
the statistics updated exactly as in the source.  The chart/dashboard
rendering reads the state and mutates nothing, so it does not appear. -/
def process_message (st : AnalyzerState) (now : ℚ) (line : ParsedLine) :
    AnalyzerState :=
  match line with
  | .invalidJson => st
  | .nonDict => st
  | .dict r =>
    match getSentiment? r with
    | none => st
    | some sentiment =>
      let message_text := r.message.getD ""
      let author := r.author.getD "Unknown"
      let category := r.category.getD "other"
      let scored := calculate_gospel_score st.keyword_counts message_text
      let gospel_score := scored.1
      let faith_impact := calculate_faith_impact gospel_score sentiment
      let st1 : AnalyzerState :=
        { st with
          keyword_counts := scored.2
          timestamps := dequeAppend st.max_points st.timestamps now
          gospel_scores := dequeAppend st.max_points st.gospel_scores gospel_score
          faith_impact := dequeAppend st.max_points st.faith_impact faith_impact
          total_messages := st.total_messages + 1 }
      let st2 : AnalyzerState :=
        if gospel_score > 0.3 then
          { st1 with
            gospel_messages := st1.gospel_messages + 1
            authors_sharing_gospel := insert author st1.authors_sharing_gospel
            category_gospel_counts := incr st1.category_gospel_counts category }
        else st1
      let st3 : AnalyzerState :=
        if faith_impact > 0.7 then
          { st2 with
            bold_witness_count := st2.bold_witness_count + 1
            high_impact_messages := st2.high_impact_messages + 1 }
        else st2
      if is_evangelistic_opportunity r = some true then
        { st3 with
          evangelistic_opportunities := st3.evangelistic_opportunities + 1 }
      else st3

/-- Snapshot of all counters and rolling-buffer contents, as the spec's
`process(record) -> Snapshot` contract describes the return value.
Modelled from the spec: no such type exists in the source, whose
`process_message` is annotated `-> None`. -/
structure Snapshot where
  timestamps : List ℚ
  gospel_scores : List ℚ
  faith_impact : List ℚ
  total_messages : ℕ
  gospel_messages : ℕ
  bold_witness_count : ℕ
  evangelistic_opportunities : ℕ
deriving DecidableEq

/-- `process_message` together with its Python return value.  The source
function is annotated `-> None` and contains no `return` statement, so the
returned value is always Python `None`, i.e. `none : Option Snapshot`. -/
def process_message_with_return (st : AnalyzerState) (now : ℚ)
    (line : ParsedLine) : AnalyzerState × Option Snapshot :=
  (process_message st now line, none)

/-- Fold `process_message` over a sequence of (timestamp, parsed line)
inputs, as the ingestion loop does. -/
def processAll (st : AnalyzerState) : List (ℚ × ParsedLine) → AnalyzerState
  | [] => st
  | (now, line) :: rest => processAll (process_message st now line) rest

/-- A line is valid when it parses to a dict whose sentiment converts. -/
def validLine : ParsedLine → Bool
  | .dict r => (getSentiment? r).isSome
  | _ => false

/-- Total keyword hits of the spec's score formula: the number of taxonomy
keywords occurring (case-insensitively) in the text. -/
def keywordHits (text : String) : ℕ :=
  (gospel_keywords.map
    (fun c => c.2.countP (fun kw => containsSub kw (lowerStr text)))).sum

/-- Category hits of the spec's score formula: the number of categories
with at least one keyword occurring in the text. -/
def categoryHits (text : String) : ℕ :=
  gospel_keywords.countP
    (fun c => c.2.any (fun kw => containsSub kw (lowerStr text)))

/-- The gospel score as a value (it does not depend on the keyword-count
map that `calculate_gospel_score` also updates). -/
def gospelScoreVal (text : String) : ℚ :=
  (calculate_gospel_score (fun _ => 0) text).1

/-- The (timestamp, score, impact) triple a valid line appends to the three
rolling buffers; `none` for an invalid line, which appends nothing. -/
def lineTriple (now : ℚ) : ParsedLine → Option (ℚ × ℚ × ℚ)
  | .dict r =>
    match getSentiment? r with
    | some v =>
      some (now, gospelScoreVal (r.message.getD ""),
        calculate_faith_impact (gospelScoreVal (r.message.getD "")) v)
    | none => none
  | _ => none

/-- The triples of all valid lines of an input sequence, in order. -/
def validTriples (inputs : List (ℚ × ParsedLine)) : List (ℚ × ℚ × ℚ) :=
  inputs.filterMap (fun x => lineTriple x.1 x.2)

/-- The last `N` elements of a list (all of it when it is shorter). -/
def lastN (N : ℕ) (l : List α) : List α := l.drop (l.length - N)

/-! ### Characterisation of the score computation -/

theorem scanKeywords_fst (L : String) (kws : List String) :
    ∀ (tk fc : ℕ) (kwm : String → ℕ) (found : Bool),
      (scanKeywords L kws tk fc kwm found).1
        = tk + kws.countP (fun kw => containsSub kw L) := by
  induction kws with
  | nil => intro tk fc kwm found; simp [scanKeywords]
  | cons kw rest ih =>
    intro tk fc kwm found
    by_cases h : containsSub kw L
    · rw [scanKeywords, if_pos h, ih, List.countP_cons]
      simp [h]; omega
    · rw [scanKeywords, if_neg h, ih, List.countP_cons]
      simp [h]

theorem scanKeywords_cats (L : String) (kws : List String) :
    ∀ (tk fc : ℕ) (kwm : String → ℕ) (found : Bool),
      (scanKeywords L kws tk fc kwm found).2.1
        = fc + (if (!found) && kws.any (fun kw => containsSub kw L)
                then 1 else 0) := by
  induction kws with
  | nil => intro tk fc kwm found; simp [scanKeywords]
  | cons kw rest ih =>
    intro tk fc kwm found
    by_cases h : containsSub kw L
    · rw [scanKeywords, if_pos h, ih]
      cases found <;> simp [h]
    · rw [scanKeywords, if_neg h, ih]
      cases found <;> simp [h]

theorem scanKeywords_kwm_mono (L : String) (kws : List String) :
    ∀ (tk fc : ℕ) (kwm : String → ℕ) (found : Bool) (k : String),
      kwm k ≤ (scanKeywords L kws tk fc kwm found).2.2.1 k := by
  induction kws with
  | nil => intro tk fc kwm found k; simp [scanKeywords]
  | cons kw rest ih =>
    intro tk fc kwm found k
    by_cases h : containsSub kw L
    · rw [scanKeywords, if_pos h]
      refine le_trans ?_ (ih _ _ _ _ k)
      unfold incr; split <;> omega
    · rw [scanKeywords, if_neg h]; exact ih _ _ _ _ k

theorem scanCategories_fst (L : String) (cats : List (String × List String)) :
    ∀ (tk fc : ℕ) (kwm : String → ℕ),
      (scanCategories L cats tk fc kwm).1
        = tk + (cats.map
            (fun c => c.2.countP (fun kw => containsSub kw L))).sum := by
  induction cats with
  | nil => intro tk fc kwm; simp [scanCategories]
  | cons c rest ih =>
    intro tk fc kwm
    obtain ⟨name, kws⟩ := c
    rw [scanCategories, ih, scanKeywords_fst]
    simp; omega

theorem scanCategories_cats (L : String) (cats : List (String × List String)) :
    ∀ (tk fc : ℕ) (kwm : String → ℕ),
      (scanCategories L cats tk fc kwm).2.1
        = fc + cats.countP (fun c => c.2.any (fun kw => containsSub kw L)) := by
  induction cats with
  | nil => intro tk fc kwm; simp [scanCategories]
  | cons c rest ih =>
    intro tk fc kwm
    obtain ⟨name, kws⟩ := c
    rw [scanCategories, ih, scanKeywords_cats, List.countP_cons]
    by_cases h : kws.any (fun kw => containsSub kw L) <;> simp [h] <;> omega

theorem scanCategories_kwm_mono (L : String)
    (cats : List (String × List String)) :
    ∀ (tk fc : ℕ) (kwm : String → ℕ) (k : String),
      kwm k ≤ (scanCategories L cats tk fc kwm).2.2 k := by
  induction cats with
  | nil => intro tk fc kwm k; simp [scanCategories]
  | cons c rest ih =>
    intro tk fc kwm k
    obtain ⟨name, kws⟩ := c
    rw [scanCategories]
    exact le_trans (scanKeywords_kwm_mono L kws _ _ _ _ k) (ih _ _ _ k)

theorem gospel_score_eq (kwm : String → ℕ) (text : String) :
    (calculate_gospel_score kwm text).1
      = min (min ((keywordHits text : ℚ) * 0.2) 1.0
              + (categoryHits text : ℚ) * 0.1) 1.0 := by
  unfold calculate_gospel_score
  by_cases h : text = ""
  · subst h
    have h1 : keywordHits "" = 0 := by decide
    have h2 : categoryHits "" = 0 := by decide
    rw [h1, h2]; norm_num
  · rw [if_neg h]
    show min (min _ _ + _) _ = _
    rw [scanCategories_fst, scanCategories_cats, keywordHits, categoryHits]
    norm_num

theorem gospel_score_val_eq (kwm : String → ℕ) (text : String) :
    (calculate_gospel_score kwm text).1 = gospelScoreVal text := by
  rw [gospelScoreVal, gospel_score_eq, gospel_score_eq]

theorem gospel_score_nonneg (kwm : String → ℕ) (text : String) :
    0 ≤ (calculate_gospel_score kwm text).1 := by
  rw [gospel_score_eq]
  have h1 : (0 : ℚ) ≤ min ((keywordHits text : ℚ) * 0.2) 1.0 := by
    rw [le_min_iff]; constructor <;> positivity
  have h2 : (0 : ℚ) ≤ (categoryHits text : ℚ) * 0.1 := by positivity
  rw [le_min_iff]; constructor <;> [linarith; norm_num]

theorem gospel_score_le_one (kwm : String → ℕ) (text : String) :
    (calculate_gospel_score kwm text).1 ≤ 1 := by
  rw [gospel_score_eq]
  exact le_trans (min_le_right _ 1.0) (by norm_num)

theorem gospel_score_kwm_mono (kwm : String → ℕ) (text : String) (k : String) :
    kwm k ≤ (calculate_gospel_score kwm text).2 k := by
  unfold calculate_gospel_score
  by_cases h : text = ""
  · simp [h]
  · rw [if_neg h]
    show kwm k ≤ (scanCategories (lowerStr text) gospel_keywords 0 0 kwm).2.2 k
    exact scanCategories_kwm_mono (lowerStr text) gospel_keywords 0 0 kwm k

/-! ### Claim theorems: scoring, impact, opportunity -/

/-- C1: for every keyword-count map and every text, the gospel score equals
`min(min(k * 0.2, 1.0) + c * 0.1, 1.0)` where `k` is the number of taxonomy
keywords occurring case-insensitively in the text and `c` the number of
categories with at least one hit; the base term is clamped before the
diversity bonus is added and the sum is clamped again.  The text
"jesus faith" has exactly the hits `jesus` and `faith` (k = 2, c = 2) and
scores `min(0.4, 1.0) + 0.2 = 0.6`. -/
theorem claim_C1_score_formula :
    (∀ (kwm : String → ℕ) (text : String),
        (calculate_gospel_score kwm text).1
          = min (min ((keywordHits text : ℚ) * 0.2) 1.0
                  + (categoryHits text : ℚ) * 0.1) 1.0)
    ∧ keywordHits "jesus faith" = 2
    ∧ categoryHits "jesus faith" = 2
    ∧ (∀ kwm : String → ℕ,
        (calculate_gospel_score kwm "jesus faith").1 = 0.6) := by
  refine ⟨gospel_score_eq, by decide, by decide, fun kwm => ?_⟩
  rw [gospel_score_eq, show keywordHits "jesus faith" = 2 by decide,
    show categoryHits "jesus faith" = 2 by decide]
  norm_num

/-- C6: the gospel score is deterministic (its value does not depend on the
keyword-count map, i.e. only on the input text), always lies in `[0, 1]`,
and the empty string scores `0`. -/
theorem claim_C6_score_deterministic_bounded :
    (∀ (kwm kwm' : String → ℕ) (text : String),
        (calculate_gospel_score kwm text).1
          = (calculate_gospel_score kwm' text).1)
    ∧ (∀ (kwm : String → ℕ) (text : String),
        0 ≤ (calculate_gospel_score kwm text).1
          ∧ (calculate_gospel_score kwm text).1 ≤ 1)
    ∧ (∀ kwm : String → ℕ, (calculate_gospel_score kwm "").1 = 0) := by
  refine ⟨fun kwm kwm' text => ?_,
    fun kwm text => ⟨gospel_score_nonneg kwm text, gospel_score_le_one kwm text⟩,
    fun kwm => by simp [calculate_gospel_score]⟩
  rw [gospel_score_val_eq, gospel_score_val_eq]

/-- C3: the faith impact is `score * max(sentiment, 0.3)`; it is strictly
positive whenever the score is, and at sentiment `-0.5` it equals
`score * 0.3` for every positive score. -/
theorem claim_C3_faith_impact :
    (∀ s v : ℚ, calculate_faith_impact s v = s * max v 0.3)
    ∧ (∀ s v : ℚ, 0 < s → 0 < calculate_faith_impact s v)
    ∧ (∀ s : ℚ, 0 < s → calculate_faith_impact s (-0.5) = s * 0.3) := by
  refine ⟨fun s v => rfl, fun s v hs => ?_, fun s _ => ?_⟩
  · exact mul_pos hs (lt_of_lt_of_le (by norm_num) (le_max_right v 0.3))
  · rw [calculate_faith_impact, max_eq_right (by norm_num : (-0.5:ℚ) ≤ 0.3)]

/-- Witness for C3 at `s = 1`: the impact at sentiment `-2` is positive and
the impact at sentiment `-0.5` is `1 * 0.3`. -/
theorem claim_C3_faith_impact_witness :
    0 < calculate_faith_impact 1 (-2)
      ∧ calculate_faith_impact 1 (-0.5) = 1 * 0.3 :=
  ⟨claim_C3_faith_impact.2.1 1 (-2) one_pos,
   claim_C3_faith_impact.2.2 1 one_pos⟩

/-- C4: `is_evangelistic_opportunity` on a record whose sentiment converts
to `v` returns `true` exactly when the lowered message contains one of the
fixed opportunity phrases, or `v < -0.1`, or `v > 0.8`.  It is `true` at
sentiment `0.9` for every message text, and `false` for sentiment `0` with
message "hello".  (The predicate is pure: it is a function of the record
alone and touches no aggregator state.) -/
theorem claim_C4_opportunity :
    (∀ (r : RecordDict) (v : ℚ), getSentiment? r = some v →
      (is_evangelistic_opportunity r = some true ↔
        (∃ p ∈ opportunity_phrases,
            containsSub p (lowerStr (r.message.getD "")) = true)
          ∨ v < -0.1 ∨ v > 0.8))
    ∧ (∀ m a c : Option String,
        is_evangelistic_opportunity ⟨m, a, some (.num 0.9), c⟩ = some true)
    ∧ is_evangelistic_opportunity ⟨some "hello", none, some (.num 0), none⟩
        = some false := by
  refine ⟨fun r v h => ?_, fun m a c => ?_, ?_⟩
  · rw [is_evangelistic_opportunity, h]
    show (if opportunity_phrases.any
            (fun p => containsSub p (lowerStr (r.message.getD ""))) then
          some true
        else some (decide (v < -0.1) || decide (v > 0.8))) = some true ↔ _
    by_cases hany : opportunity_phrases.any
        (fun p => containsSub p (lowerStr (r.message.getD ""))) = true
    · rw [if_pos hany]
      simp only [List.any_eq_true] at hany
      exact iff_of_true rfl (Or.inl hany)
    · rw [if_neg hany]
      simp only [List.any_eq_true] at hany
      push_neg at hany
      constructor
      · intro hsome
        rw [Option.some_inj, Bool.or_eq_true, decide_eq_true_iff,
          decide_eq_true_iff] at hsome
        exact Or.inr hsome
      · rintro (⟨p, hp, hc⟩ | hv | hv)
        · exact absurd hc (by simpa using hany p hp)
        · simp [hv]
        · simp [hv]
  · rw [is_evangelistic_opportunity]
    show (let message := lowerStr (m.getD "");
      if opportunity_phrases.any (fun p => containsSub p message) then
        some true
      else some (decide ((0.9:ℚ) < -0.1) || decide ((0.9:ℚ) > 0.8)))
        = some true
    by_cases hany : opportunity_phrases.any
        (fun p => containsSub p (lowerStr (m.getD ""))) = true
    · simp [hany]
    · simp [hany, show ((0.9:ℚ) > 0.8) by norm_num]
  · have hph : ∀ x ∈ opportunity_phrases,
        containsSub x (lowerStr "hello") = false := by decide
    simp [is_evangelistic_opportunity, getSentiment?,
      show ¬((0:ℚ) < -0.1) by norm_num, show ¬((0:ℚ) > 0.8) by norm_num]
    exact hph

/-- Witness for C4: the characterisation instantiated at the record with
message "i feel lonely" and sentiment `0`, whose sentiment field converts. -/
theorem claim_C4_opportunity_witness :
    is_evangelistic_opportunity
        ⟨some "i feel lonely", none, some (.num 0), none⟩ = some true ↔
      (∃ p ∈ opportunity_phrases,
          containsSub p
            (lowerStr ((some "i feel lonely").getD "")) = true)
        ∨ (0:ℚ) < -0.1 ∨ (0:ℚ) > 0.8 :=
  claim_C4_opportunity.1 ⟨some "i feel lonely", none, some (.num 0), none⟩ 0 rfl

/-! ### Characterisation of the state update -/

/-- A malformed line (JSON error, non-dict top level, or sentiment on which
`float(..)` raises) leaves the state untouched: the exception is raised
before any mutation and caught by the surrounding handler. -/
theorem process_message_malformed (st : AnalyzerState) (now : ℚ) :
    process_message st now .invalidJson = st
    ∧ process_message st now .nonDict = st
    ∧ ∀ r : RecordDict, getSentiment? r = none →
        process_message st now (.dict r) = st := by
  refine ⟨rfl, rfl, fun r hr => ?_⟩
  rw [process_message, hr]

/-- Every field of the state after processing a dict line whose sentiment
converts to `v`, in terms of the fields before. -/
theorem process_message_fields (st : AnalyzerState) (now : ℚ) (r : RecordDict)
    (v : ℚ) (h : getSentiment? r = some v) :
    (process_message st now (.dict r)).max_points = st.max_points
    ∧ (process_message st now (.dict r)).total_messages
        = st.total_messages + 1
    ∧ (process_message st now (.dict r)).keyword_counts
        = (calculate_gospel_score st.keyword_counts (r.message.getD "")).2
    ∧ (process_message st now (.dict r)).timestamps
        = dequeAppend st.max_points st.timestamps now
    ∧ (process_message st now (.dict r)).gospel_scores
        = dequeAppend st.max_points st.gospel_scores
            (calculate_gospel_score st.keyword_counts (r.message.getD "")).1
    ∧ (process_message st now (.dict r)).faith_impact
        = dequeAppend st.max_points st.faith_impact
            (calculate_faith_impact
              (calculate_gospel_score st.keyword_counts (r.message.getD "")).1 v)
    ∧ (process_message st now (.dict r)).gospel_messages
        = st.gospel_messages
          + (if (calculate_gospel_score st.keyword_counts (r.message.getD "")).1 > 0.3
             then 1 else 0)
    ∧ (process_message st now (.dict r)).authors_sharing_gospel
        = (if (calculate_gospel_score st.keyword_counts (r.message.getD "")).1 > 0.3
           then insert (r.author.getD "Unknown") st.authors_sharing_gospel
           else st.authors_sharing_gospel)
    ∧ (process_message st now (.dict r)).category_gospel_counts
        = (if (calculate_gospel_score st.keyword_counts (r.message.getD "")).1 > 0.3
           then incr st.category_gospel_counts (r.category.getD "other")
           else st.category_gospel_counts)
    ∧ (process_message st now (.dict r)).bold_witness_count
        = st.bold_witness_count
          + (if calculate_faith_impact
                (calculate_gospel_score st.keyword_counts (r.message.getD "")).1 v > 0.7
             then 1 else 0)
    ∧ (process_message st now (.dict r)).high_impact_messages
        = st.high_impact_messages
          + (if calculate_faith_impact
                (calculate_gospel_score st.keyword_counts (r.message.getD "")).1 v > 0.7
             then 1 else 0)
    ∧ (process_message st now (.dict r)).evangelistic_opportunities
        = st.evangelistic_opportunities
          + (if is_evangelistic_opportunity r = some true then 1 else 0) := by
  rw [process_message, h]
  dsimp only
  split_ifs <;> simp

/-- C7: a malformed input line (invalid JSON, a non-dict top-level value,
or a sentiment field on which `float(..)` raises) is skipped and the whole
aggregator state is exactly as before the call. -/
theorem claim_C7_malformed_is_skipped :
    ∀ (st : AnalyzerState) (now : ℚ) (line : ParsedLine),
      (line = .invalidJson ∨ line = .nonDict ∨
        ∃ r, line = .dict r ∧ getSentiment? r = none) →
      process_message st now line = st := by
  rintro st now line (rfl | rfl | ⟨r, rfl, hr⟩)
  · exact (process_message_malformed st now).1
  · exact (process_message_malformed st now).2.1
  · exact (process_message_malformed st now).2.2 r hr

/-- Witness for C7: a dict line with a non-numeric sentiment leaves the
initial state unchanged. -/
theorem claim_C7_malformed_is_skipped_witness :
    process_message initialState 0
        (.dict ⟨some "jesus", none, some .nonNumeric, none⟩) = initialState :=
  claim_C7_malformed_is_skipped initialState 0
    (.dict ⟨some "jesus", none, some .nonNumeric, none⟩)
    (Or.inr (Or.inr ⟨⟨some "jesus", none, some .nonNumeric, none⟩, rfl, rfl⟩))

/-- C8: one call of `process_message` never decreases any cumulative
counter, any per-keyword count, any per-category count, and never removes
an author from the author set. -/
theorem claim_C8_counters_monotone :
    ∀ (st : AnalyzerState) (now : ℚ) (line : ParsedLine),
      st.total_messages ≤ (process_message st now line).total_messages
      ∧ st.gospel_messages ≤ (process_message st now line).gospel_messages
      ∧ st.bold_witness_count
          ≤ (process_message st now line).bold_witness_count
      ∧ st.evangelistic_opportunities
          ≤ (process_message st now line).evangelistic_opportunities
      ∧ (∀ k, st.keyword_counts k
          ≤ (process_message st now line).keyword_counts k)
      ∧ (∀ c, st.category_gospel_counts c
          ≤ (process_message st now line).category_gospel_counts c)
      ∧ st.authors_sharing_gospel
          ⊆ (process_message st now line).authors_sharing_gospel := by
  intro st now line
  match line with
  | .invalidJson =>
    rw [(process_message_malformed st now).1]
    exact ⟨le_rfl, le_rfl, le_rfl, le_rfl, fun k => le_rfl, fun c => le_rfl,
      Finset.Subset.refl _⟩
  | .nonDict =>
    rw [(process_message_malformed st now).2.1]
    exact ⟨le_rfl, le_rfl, le_rfl, le_rfl, fun k => le_rfl, fun c => le_rfl,
      Finset.Subset.refl _⟩
  | .dict r =>
    cases hs : getSentiment? r with
    | none =>
      rw [(process_message_malformed st now).2.2 r hs]
      exact ⟨le_rfl, le_rfl, le_rfl, le_rfl, fun k => le_rfl, fun c => le_rfl,
        Finset.Subset.refl _⟩
    | some v =>
      obtain ⟨hmax, htot, hkw, hts, hsc, him, hgm, hauth, hcat, hbold,
        hhigh, hopp⟩ := process_message_fields st now r v hs
      refine ⟨by omega, ?_, ?_, ?_, ?_, ?_, ?_⟩
      · rw [hgm]; exact Nat.le_add_right _ _
      · rw [hbold]; exact Nat.le_add_right _ _
      · rw [hopp]; exact Nat.le_add_right _ _
      · intro k; rw [hkw]; exact gospel_score_kwm_mono st.keyword_counts _ k
      · intro c
        rw [hcat]
        split_ifs
        · unfold incr; split <;> omega
        · exact le_rfl
      · rw [hauth]
        split_ifs
        · exact Finset.subset_insert _ _
        · exact Finset.Subset.refl _

/-- A valid line (dict with convertible sentiment) increments
`total_messages` by exactly one, whatever the record contains. -/
theorem process_message_valid_total (st : AnalyzerState) (now : ℚ)
    (line : ParsedLine) (h : validLine line = true) :
    (process_message st now line).total_messages = st.total_messages + 1 := by
  match line with
  | .dict r =>
    rw [validLine, Option.isSome_iff_exists] at h
    obtain ⟨v, hv⟩ := h
    exact (process_message_fields st now r v hv).2.1

theorem processAll_total (inputs : List (ℚ × ParsedLine)) :
    ∀ st : AnalyzerState, (∀ x ∈ inputs, validLine x.2 = true) →
      (processAll st inputs).total_messages
        = st.total_messages + inputs.length := by
  induction inputs with
  | nil => intro st _; simp [processAll]
  | cons hd rest ih =>
    intro st hall
    obtain ⟨now, line⟩ := hd
    rw [processAll, ih _ (fun x hx => hall x (List.mem_cons_of_mem _ hx)),
      process_message_valid_total st now line
        (hall (now, line) (List.mem_cons_self _ _))]
    simp only [List.length_cons]
    omega

/-- C9: processing any sequence of N valid records from the initial state
leaves `total_messages = N`: each valid record unconditionally adds one. -/
theorem claim_C9_total_counts_records :
    ∀ inputs : List (ℚ × ParsedLine),
      (∀ x ∈ inputs, validLine x.2 = true) →
      (processAll initialState inputs).total_messages = inputs.length := by
  intro inputs h
  rw [processAll_total inputs initialState h]
  simp [initialState]

/-- Witness for C9: two concrete valid records give `total_messages = 2`. -/
theorem claim_C9_total_counts_records_witness :
    (processAll initialState
      [(0, .dict ⟨none, none, none, none⟩),
       (1, .dict ⟨some "", none, some (.num 0), none⟩)]).total_messages
      = 2 := by
  have h := claim_C9_total_counts_records
    [(0, .dict ⟨none, none, none, none⟩),
     (1, .dict ⟨some "", none, some (.num 0), none⟩)] (by decide)
  simpa using h

/-! ### The rolling buffers -/

theorem dequeAppend_lastN (N : ℕ) (l : List α) (x : α) :
    dequeAppend N (lastN N l) x = lastN N (l ++ [x]) := by
  unfold dequeAppend lastN
  rw [List.length_drop,
    ← List.drop_append_of_le_length (show l.length - N ≤ l.length by omega),
    List.drop_drop]
  congr 1
  rw [List.length_append]
  simp
  omega

theorem lastN_length (N : ℕ) (l : List α) :
    (lastN N l).length = min l.length N := by
  rw [lastN, List.length_drop, Nat.min_def]
  split <;> omega

/-- Along any run, the three rolling buffers are exactly the last 100
(timestamp, score, impact) triples of the valid records processed so far,
projected componentwise. -/
theorem processAll_buffers (inputs : List (ℚ × ParsedLine)) :
    ∀ (st : AnalyzerState) (ts : List (ℚ × ℚ × ℚ)),
      st.max_points = 100 →
      st.timestamps = lastN 100 (ts.map (fun t => t.1)) →
      st.gospel_scores = lastN 100 (ts.map (fun t => t.2.1)) →
      st.faith_impact = lastN 100 (ts.map (fun t => t.2.2)) →
      (processAll st inputs).timestamps
          = lastN 100 ((ts ++ validTriples inputs).map (fun t => t.1))
      ∧ (processAll st inputs).gospel_scores
          = lastN 100 ((ts ++ validTriples inputs).map (fun t => t.2.1))
      ∧ (processAll st inputs).faith_impact
          = lastN 100 ((ts ++ validTriples inputs).map (fun t => t.2.2)) := by
  induction inputs with
  | nil =>
    intro st ts hmax h1 h2 h3
    rw [processAll]
    have hnil : validTriples [] = [] := rfl
    rw [hnil, List.append_nil]
    exact ⟨h1, h2, h3⟩
  | cons hd rest ih =>
    intro st ts hmax h1 h2 h3
    obtain ⟨now, line⟩ := hd
    rw [processAll]
    match line with
    | .invalidJson =>
      rw [(process_message_malformed st now).1]
      have hv : validTriples ((now, ParsedLine.invalidJson) :: rest)
          = validTriples rest := by simp [validTriples, lineTriple]
      rw [hv]
      exact ih st ts hmax h1 h2 h3
    | .nonDict =>
      rw [(process_message_malformed st now).2.1]
      have hv : validTriples ((now, ParsedLine.nonDict) :: rest)
          = validTriples rest := by simp [validTriples, lineTriple]
      rw [hv]
      exact ih st ts hmax h1 h2 h3
    | .dict r =>
      cases hs : getSentiment? r with
      | none =>
        rw [(process_message_malformed st now).2.2 r hs]
        have hv : validTriples ((now, ParsedLine.dict r) :: rest)
            = validTriples rest := by simp [validTriples, lineTriple, hs]
        rw [hv]
        exact ih st ts hmax h1 h2 h3
      | some v =>
        obtain ⟨hmax', htot, hkw, hts, hsc, him, _⟩ :=
          process_message_fields st now r v hs
        have hv : validTriples ((now, ParsedLine.dict r) :: rest)
            = (now, gospelScoreVal (r.message.getD ""),
                calculate_faith_impact (gospelScoreVal (r.message.getD "")) v)
              :: validTriples rest := by
          simp [validTriples, lineTriple, hs]
        rw [hv]
        have hres := ih (process_message st now (.dict r))
          (ts ++ [(now, gospelScoreVal (r.message.getD ""),
            calculate_faith_impact (gospelScoreVal (r.message.getD "")) v)])
          (by rw [hmax', hmax])
          (by rw [hts, hmax, h1]
              simp only [List.map_append, List.map_cons, List.map_nil]
              exact dequeAppend_lastN 100 _ now)
          (by rw [hsc, hmax, h2, gospel_score_val_eq]
              simp only [List.map_append, List.map_cons, List.map_nil]
              exact dequeAppend_lastN 100 _ _)
          (by rw [him, hmax, h3, gospel_score_val_eq]
              simp only [List.map_append, List.map_cons, List.map_nil]
              exact dequeAppend_lastN 100 _ _)
        rw [List.append_assoc, List.singleton_append] at hres
        exact hres

/-- C5: after processing any input sequence from the initial state, the
three rolling buffers have equal length, never exceed the fixed capacity
100, and are componentwise projections of one common list of
(timestamp, score, impact) triples — the last 100 valid records — so entry
`i` of each buffer comes from the same processed record, the oldest entry
having been evicted at capacity. -/
theorem claim_C5_rolling_buffers :
    ∀ inputs : List (ℚ × ParsedLine),
      (processAll initialState inputs).timestamps.length
          = (processAll initialState inputs).gospel_scores.length
      ∧ (processAll initialState inputs).gospel_scores.length
          = (processAll initialState inputs).faith_impact.length
      ∧ (processAll initialState inputs).timestamps.length ≤ 100
      ∧ (processAll initialState inputs).timestamps
          = lastN 100 ((validTriples inputs).map (fun t => t.1))
      ∧ (processAll initialState inputs).gospel_scores
          = lastN 100 ((validTriples inputs).map (fun t => t.2.1))
      ∧ (processAll initialState inputs).faith_impact
          = lastN 100 ((validTriples inputs).map (fun t => t.2.2)) := by
  intro inputs
  obtain ⟨h1, h2, h3⟩ := processAll_buffers inputs initialState [] rfl rfl rfl rfl
  rw [List.nil_append] at h1 h2 h3
  refine ⟨?_, ?_, ?_, h1, h2, h3⟩
  · rw [h1, h2, lastN_length, lastN_length, List.length_map, List.length_map]
  · rw [h2, h3, lastN_length, lastN_length, List.length_map, List.length_map]
  · rw [h1, lastN_length]
    exact min_le_right _ _

/-- Appending to a deque of positive capacity always keeps the appended
element as the last entry. -/
theorem dequeAppend_getLast (N : ℕ) (hN : 0 < N) (d : List α) (x : α) :
    (dequeAppend N d x).getLast? = some x := by
  unfold dequeAppend
  rw [List.drop_append_of_le_length (show d.length + 1 - N ≤ d.length by omega)]
  exact List.getLast?_concat _

/-- A message hitting five keywords in five categories has score exactly 1. -/
theorem gospelScoreVal_five_keywords :
    gospelScoreVal "jesus faith bible grace witness" = 1 := by
  rw [gospelScoreVal, gospel_score_eq,
    show keywordHits "jesus faith bible grace witness" = 5 by decide,
    show categoryHits "jesus faith bible grace witness" = 5 by decide]
  norm_num

/-- C10: the faith impact is not clamped to `[0, 1]`: whenever the score of
a text times the sentiment exceeds 1, the computed impact equals that
product (the `0.3` floor is inactive) and so exceeds 1; and the value
appended to the rolling impact buffer by `process_message` is exactly the
computed impact, with no later reduction. -/
theorem claim_C10_impact_unclamped :
    (∀ (text : String) (v : ℚ), 1 < gospelScoreVal text * v →
      calculate_faith_impact (gospelScoreVal text) v = gospelScoreVal text * v
      ∧ 1 < calculate_faith_impact (gospelScoreVal text) v)
    ∧ (∀ (st : AnalyzerState) (now : ℚ) (r : RecordDict) (v : ℚ),
        getSentiment? r = some v → 0 < st.max_points →
        (process_message st now (.dict r)).faith_impact.getLast?
          = some (calculate_faith_impact
              (gospelScoreVal (r.message.getD "")) v)) := by
  constructor
  · intro text v h
    have hs0 : 0 ≤ gospelScoreVal text := gospel_score_nonneg _ text
    have hs1 : gospelScoreVal text ≤ 1 := gospel_score_le_one _ text
    have hv : (0.3:ℚ) ≤ v := by
      by_contra hv
      push_neg at hv
      have h1 : gospelScoreVal text * v ≤ gospelScoreVal text * 0.3 :=
        mul_le_mul_of_nonneg_left (le_of_lt hv) hs0
      have h2 : gospelScoreVal text * 0.3 ≤ 1 * 0.3 :=
        mul_le_mul_of_nonneg_right hs1 (by norm_num)
      linarith
    rw [calculate_faith_impact, max_eq_left hv]
    exact ⟨rfl, h⟩
  · intro st now r v hs hN
    obtain ⟨_, _, _, _, _, him, _⟩ := process_message_fields st now r v hs
    rw [him, gospel_score_val_eq]
    exact dequeAppend_getLast st.max_points hN _ _

/-- Witness for C10: the message "jesus faith bible grace witness" scores
1, so with sentiment 2 the impact is `1 * 2 = 2 > 1`, and the initial
state's impact buffer ends with exactly that value after one call. -/
theorem claim_C10_impact_unclamped_witness :
    (calculate_faith_impact (gospelScoreVal "jesus faith bible grace witness") 2
        = gospelScoreVal "jesus faith bible grace witness" * 2
      ∧ 1 < calculate_faith_impact
          (gospelScoreVal "jesus faith bible grace witness") 2)
    ∧ (process_message initialState 0
        (.dict ⟨some "jesus faith bible grace witness", none,
          some (.num 2), none⟩)).faith_impact.getLast?
        = some (calculate_faith_impact
            (gospelScoreVal
              ((some "jesus faith bible grace witness" : Option String).getD ""))
            2) :=
  ⟨claim_C10_impact_unclamped.1 "jesus faith bible grace witness" 2
      (by rw [gospelScoreVal_five_keywords]; norm_num),
   claim_C10_impact_unclamped.2 initialState 0
      ⟨some "jesus faith bible grace witness", none, some (.num 2), none⟩ 2
      rfl (by decide)⟩

/-! ### The return value of process_message -/

/-- C2 counterexample: `process_message` does not return a snapshot.  At a
concrete valid record the returned value (modelling the Python return
value of a function annotated `-> None` with no `return` statement) is
`none`, not `some` snapshot of the counters and buffers. -/
theorem claim_C2_counterexample :
    (process_message_with_return initialState 0
        (.dict ⟨some "jesus", none, some (.num 0.5), none⟩)).2 = none := rfl

/-- C2 amended: `process_message` returns `None` on every call; the
presentation layer does not receive a returned snapshot but reads the
updated aggregator state, which is exactly the state `process_message`
computes. -/
theorem claim_C2_amended_returns_none :
    ∀ (st : AnalyzerState) (now : ℚ) (line : ParsedLine),
      (process_message_with_return st now line).2 = none
      ∧ (process_message_with_return st now line).1
          = process_message st now line :=
  fun _ _ _ => ⟨rfl, rfl⟩
